import Mathlib

/-!
Shallow embedding of neurowriter's src/neurowriter/model.py (class Model).

The transformer scorer, the tokenizer and the dataset are external
collaborators of the code under verification, so they appear here as
parameters:
* weights are an opaque type W (BertForSequenceClassification state);
* the composite "encode_bert followed by a forward pass" is a function
  scorer : List Nat -> List Rat from the raw token context to logits;
* the stochastic "F.softmax followed by torch.multinomial" collaborator is
  a function pick : Nat -> List Rat -> Nat from the step number (position
  in the random stream) and the temperature-scaled logits to the sampled
  label index;
* per-epoch training dynamics of fit are a function losses : Nat -> Rat
  (validation loss measured after epoch e) together with
  weights : Nat -> W (the in-place mutated weights after epoch e);
* pickle round-tripping of the (labels, contextsize) metadata tuple is an
  identity on the stored pair.

Machine floats of the original are modelled as rationals; file system
writes of save are modelled as records of what was written where.
-/

namespace Neurowriter

/-- Train/eval flag of the underlying torch module: model.train() and
model.eval() in the source. -/
inductive Mode where
  | train : Mode
  | eval : Mode
deriving DecidableEq, Repr

/-- State of a neurowriter Model object (model.py, class Model): the opaque
scorer weights (self.model), the label translation table (self.labels), the
context window size (self.contextsize) and the module's train/eval flag. -/
structure ModelT (W : Type) where
  model : Option W
  labels : List Nat
  contextsize : Nat
  mode : Mode
deriving DecidableEq, Repr

/-- Contents of a model folder written by Model.save: the scorer's native
serialized weights plus the labels.pkl sidecar holding (labels, contextsize). -/
structure SavedFolder (W : Type) where
  weights : Option W
  metadata : List Nat × Nat
deriving DecidableEq, Repr

/-- Model.save (model.py lines 201-215): writes the weights and pickles the
(self.labels, self.contextsize) tuple into the folder. -/
def ModelT.save {W : Type} (m : ModelT W) : SavedFolder W :=
  { weights := m.model, metadata := (m.labels, m.contextsize) }

/-- Model.load (model.py lines 217-230): unpickles labels.pkl into
model.labels, model.contextsize and loads the weights from the folder; a
freshly constructed torch module starts in train mode. -/
def ModelT.load {W : Type} (f : SavedFolder W) : ModelT W :=
  { model := f.weights, labels := f.metadata.1, contextsize := f.metadata.2,
    mode := Mode.train }

/-- One sliding-window adjustment (model.py lines 197-198): after a token is
appended, if the context length exceeds contextsize the oldest (front) token
is popped. -/
def slideCtx (contextsize : Nat) (ctx : List Nat) : List Nat :=
  if contextsize < ctx.length then ctx.tail else ctx

/-- The generation loop of Model.generate (model.py lines 179-199), fuelled by
the remaining iterations of `for _ in range(maxlength)`.  Each step scales the
scorer's logits by 1/temperature (line 188), asks the sampling collaborator for
a label index, translates it through labels (line 191), stops when the END
token appears (lines 193-194), and otherwise appends the token to both the
context and the output before sliding the window.  Besides the generated
output it returns the run's trace: for every executed step, the context that
was fed to the scorer's encoding together with the token produced there. -/
def genLoop (scorer : List Nat → List ℚ) (pick : Nat → List ℚ → Nat)
    (labels : List Nat) (endIdx contextsize : Nat) (temperature : ℚ) :
    Nat → Nat → List Nat → List Nat × List (List Nat × Nat)
  | 0, _, _ => ([], [])
  | fuel + 1, step, ctx =>
    let tok := labels.getD (pick step ((scorer ctx).map fun z => z / temperature)) 0
    if tok = endIdx then ([], [(ctx, tok)])
    else
      let rest := genLoop scorer pick labels endIdx contextsize temperature fuel
        (step + 1) (slideCtx contextsize (ctx ++ [tok]))
      (tok :: rest.1, (ctx, tok) :: rest.2)

/-- Model.generate (model.py lines 163-199): sets the scorer to eval mode and
runs the generation loop from the encoded seed, returning the updated model
object and the generated token sequence (decodeindexes, a tokenizer
collaborator, is applied to exactly this sequence in the source). -/
def ModelT.generate {W : Type} (m : ModelT W) (scorer : List Nat → List ℚ)
    (pick : Nat → List ℚ → Nat) (seedEnc : List Nat) (endIdx : Nat)
    (maxlength : Nat) (temperature : ℚ) : ModelT W × List Nat :=
  ({ m with mode := Mode.eval },
   (genLoop scorer pick m.labels endIdx m.contextsize temperature maxlength 0 seedEnc).1)

/-- The per-step observations of the same Model.generate run: the context fed
to the scorer's encoding at each step, paired with the token sampled there. -/
def ModelT.generateTrace {W : Type} (m : ModelT W) (scorer : List Nat → List ℚ)
    (pick : Nat → List ℚ → Nat) (seedEnc : List Nat) (endIdx : Nat)
    (maxlength : Nat) (temperature : ℚ) : List (List Nat × Nat) :=
  (genLoop scorer pick m.labels endIdx m.contextsize temperature maxlength 0 seedEnc).2

/-- Lengths of the contexts fed to the scorer's encoding along a trace. -/
def fedLengths (trace : List (List Nat × Nat)) : List Nat :=
  trace.map fun p => p.1.length

/-- Destination of one Model.save call made during fit: either the
checkpoint-{epoch} directory or the final 'best' directory under outputdir. -/
inductive SaveTag where
  | checkpoint : Nat → SaveTag
  | best : SaveTag
deriving DecidableEq, Repr

/-- The training-progress state threaded through the epoch loop of Model.fit
(model.py lines 75-129): best_eval_loss (None standing for the initial
math.inf), no_improvement, best_model, the record of save calls made so far,
whether the loop was left via the early-stopping break, and the number of
epochs whose body has run. -/
structure FitState (W : Type) where
  best_eval : Option ℚ
  no_improvement : Nat
  best_model : Option W
  saves : List (SaveTag × Option W)
  stopped : Bool
  epochsRun : Nat
deriving DecidableEq, Repr

/-- The comparison eval_loss < best_eval_loss of model.py line 116, with
best_eval_loss initially math.inf (modelled as none). -/
def improvesB : Option ℚ → ℚ → Bool
  | none, _ => true
  | some b, l => decide (l < b)

/-- The save calls issued by the checkpoint block (model.py lines 126-129):
nothing when checkpointepochs is None, otherwise a save of the current weights
when the epoch index is divisible by checkpointepochs. -/
def checkpointSaves {W : Type} (weights : Nat → W) (ck : Option Nat)
    (epoch : Nat) : List (SaveTag × Option W) :=
  match ck with
  | some k => if epoch % k = 0 then [(SaveTag.checkpoint epoch, some (weights epoch))] else []
  | none => []

/-- The early-stopping bookkeeping of model.py lines 116-121: on strict
improvement record the new best loss, reset the counter and deep-copy the
current weights; otherwise increment the counter. -/
def updBest {W : Type} (losses : Nat → ℚ) (weights : Nat → W) (s : FitState W)
    (epoch : Nat) : FitState W :=
  if improvesB s.best_eval (losses epoch) then
    { s with best_eval := some (losses epoch), no_improvement := 0,
             best_model := some (weights epoch) }
  else
    { s with no_improvement := s.no_improvement + 1 }

/-- One iteration of the epoch loop of Model.fit (model.py lines 81-129).  A
state already left via break is unchanged.  Otherwise the epoch trains and
evaluates (collaborator dynamics; losses/weights oracles), the early-stopping
bookkeeping runs, and then either the loop breaks (no_improvement >= patience,
line 122, skipping the checkpoint block below it) or the checkpoint block of
lines 126-129 runs. -/
def epochStep {W : Type} (losses : Nat → ℚ) (weights : Nat → W) (patience : Nat)
    (ck : Option Nat) (s : FitState W) (epoch : Nat) : FitState W :=
  if s.stopped then s
  else
    let s1 := updBest losses weights s epoch
    if patience ≤ s1.no_improvement then
      { s1 with stopped := true, epochsRun := s1.epochsRun + 1 }
    else
      { s1 with saves := s1.saves ++ checkpointSaves weights ck epoch,
                epochsRun := s1.epochsRun + 1 }

/-- Training-progress state at the start of fit's epoch loop (model.py lines
76-79): best_eval_loss = math.inf, no_improvement = 0, best_model = None. -/
def initFitState {W : Type} : FitState W :=
  { best_eval := none, no_improvement := 0, best_model := none, saves := [],
    stopped := false, epochsRun := 0 }

/-- State of fit's epoch loop after the first n iterations of
`for epoch in range(maxepochs)`. -/
def fitStateN {W : Type} (losses : Nat → ℚ) (weights : Nat → W) (patience : Nat)
    (ck : Option Nat) (n : Nat) : FitState W :=
  (List.range n).foldl (epochStep losses weights patience ck) initFitState

/-- Outcome of a run of fit after the precondition check passed: the loop runs
for maxepochs epochs (unless broken), then the best-known snapshot is restored
as the active model and saved to the 'best' directory (model.py lines 131-136). -/
structure FitRunResult (W : Type) where
  finalModel : Option W
  saves : List (SaveTag × Option W)
  epochsRun : Nat
deriving DecidableEq, Repr

/-- The part of Model.fit after the dataset check: epoch loop, then restore
and persist the best model (model.py lines 81-136). -/
def fitResult {W : Type} (losses : Nat → ℚ) (weights : Nat → W) (patience : Nat)
    (ck : Option Nat) (maxepochs : Nat) : FitRunResult W :=
  let s := fitStateN losses weights patience ck maxepochs
  { finalModel := s.best_model,
    saves := s.saves ++ [(SaveTag.best, s.best_model)],
    epochsRun := s.epochsRun }

/-- Model.fit (model.py lines 36-136): the dataset check of lines 51-53 raises
ValueError("Insufficient data for training in the current setting") when either
split yields zero batches, before the labels are stored, before the scorer is
built and before any save; otherwise the training loop runs. -/
def fit {W : Type} (lentrainbatches lenvalbatches : Nat) (losses : Nat → ℚ)
    (weights : Nat → W) (patience : Nat) (ck : Option Nat) (maxepochs : Nat) :
    Except String (FitRunResult W) :=
  if lentrainbatches = 0 ∨ lenvalbatches = 0 then
    Except.error "Insufficient data for training in the current setting"
  else
    Except.ok (fitResult losses weights patience ck maxepochs)

/-- Concrete scorer collaborator used in witnesses: constant logits. -/
def scorerW : List Nat → List ℚ := fun _ => [1]

/-- Concrete sampling collaborator used in witnesses: always index 0. -/
def pickW : Nat → List ℚ → Nat := fun _ _ => 0

/-- Concrete validation-loss sequence used in witnesses: the loss improves at
epoch 0 and stagnates from then on. -/
def lossesW : Nat → ℚ := fun e => if e = 0 then 1 else 2

/-- Concrete weights oracle used in witnesses: epoch e trains to weights e. -/
def idW : Nat → Nat := fun e => e

/-- Concrete trained model used in generation witnesses: one label translating
to token 7, context window of size 2. -/
def mGen : ModelT Nat :=
  { model := some 0, labels := [7], contextsize := 2, mode := Mode.train }

/-- Concrete trained model whose single label translates to the END token 9. -/
def mEnd : ModelT Nat :=
  { model := some 0, labels := [9], contextsize := 2, mode := Mode.train }

/-- C9: save to a folder followed by Model.load from that folder yields a model
whose labels and contextsize are identical to the original's. -/
theorem c9_save_load_roundtrip {W : Type} (m : ModelT W) :
    (ModelT.load (ModelT.save m)).labels = m.labels ∧
    (ModelT.load (ModelT.save m)).contextsize = m.contextsize :=
  ⟨rfl, rfl⟩

section GenerationLemmas

variable (scorer : List Nat → List ℚ) (pick : Nat → List ℚ → Nat)
variable (labels : List Nat) (endIdx contextsize : Nat) (temperature : ℚ)

lemma genLoop_zero (step : Nat) (ctx : List Nat) :
    genLoop scorer pick labels endIdx contextsize temperature 0 step ctx = ([], []) := rfl

lemma genLoop_succ (fuel step : Nat) (ctx : List Nat) :
    genLoop scorer pick labels endIdx contextsize temperature (fuel + 1) step ctx =
      (let tok := labels.getD (pick step ((scorer ctx).map fun z => z / temperature)) 0
       if tok = endIdx then ([], [(ctx, tok)])
       else
         let rest := genLoop scorer pick labels endIdx contextsize temperature fuel
           (step + 1) (slideCtx contextsize (ctx ++ [tok]))
         (tok :: rest.1, (ctx, tok) :: rest.2)) := rfl

lemma genLoop_length_le (fuel : Nat) : ∀ (step : Nat) (ctx : List Nat),
    (genLoop scorer pick labels endIdx contextsize temperature fuel step ctx).1.length ≤ fuel := by
  induction fuel with
  | zero => intro step ctx; simp [genLoop_zero]
  | succ n ih =>
    intro step ctx
    rw [genLoop_succ]
    dsimp only
    split
    · simp
    · simpa using ih _ _

lemma genLoop_end_spec (fuel : Nat) : ∀ (step : Nat) (ctx : List Nat),
    (endIdx ∈ (genLoop scorer pick labels endIdx contextsize temperature fuel step ctx).2.map Prod.snd →
      (genLoop scorer pick labels endIdx contextsize temperature fuel step ctx).2.map Prod.snd =
        (genLoop scorer pick labels endIdx contextsize temperature fuel step ctx).1 ++ [endIdx] ∧
      endIdx ∉ (genLoop scorer pick labels endIdx contextsize temperature fuel step ctx).1) ∧
    (endIdx ∉ (genLoop scorer pick labels endIdx contextsize temperature fuel step ctx).2.map Prod.snd →
      (genLoop scorer pick labels endIdx contextsize temperature fuel step ctx).1 =
        (genLoop scorer pick labels endIdx contextsize temperature fuel step ctx).2.map Prod.snd) := by
  induction fuel with
  | zero => intro step ctx; simp [genLoop_zero]
  | succ n ih =>
    intro step ctx
    rw [genLoop_succ]
    dsimp only
    set tok := labels.getD (pick step ((scorer ctx).map fun z => z / temperature)) 0 with htok
    by_cases h : tok = endIdx
    · rw [if_pos h]
      constructor
      · intro _
        refine ⟨by simp [h], by simp⟩
      · intro hmem
        exfalso
        exact hmem (by simp [h])
    · rw [if_neg h]
      obtain ⟨ih1, ih2⟩ := ih (step + 1) (slideCtx contextsize (ctx ++ [tok]))
      constructor
      · intro hmem
        simp only [List.map_cons, List.mem_cons] at hmem
        rcases hmem with heq | hmem'
        · exact absurd heq.symm h
        · obtain ⟨heq, hnot⟩ := ih1 hmem'
          refine ⟨?_, ?_⟩
          · simp only [List.map_cons, heq, List.cons_append]
          · simp only [List.mem_cons, not_or]
            exact ⟨fun hc => h hc.symm, hnot⟩
      · intro hmem
        simp only [List.map_cons, List.mem_cons, not_or] at hmem
        have h2 := ih2 hmem.2
        simp only [List.map_cons, h2]

lemma slideCtx_suffix (cs : Nat) (l : List Nat) : slideCtx cs l <:+ l := by
  unfold slideCtx
  split
  · exact List.tail_suffix l
  · exact List.suffix_refl l

lemma slideCtx_length {cs : Nat} {l : List Nat} (t : Nat) (h : l.length ≤ cs) :
    (slideCtx cs (l ++ [t])).length ≤ cs := by
  unfold slideCtx
  split
  · simp [h]
  · rename_i h'
    omega

lemma suffix_append_same {α : Type} {l₁ l₂ : List α} (h : l₁ <:+ l₂) (t : List α) :
    l₁ ++ t <:+ l₂ ++ t := by
  obtain ⟨s, rfl⟩ := h
  exact ⟨s, (List.append_assoc s l₁ t).symm⟩

lemma prefix_cons_cons {α : Type} (a : α) {l₁ l₂ : List α} (h : l₁ <+: l₂) :
    a :: l₁ <+: a :: l₂ := by
  obtain ⟨t, rfl⟩ := h
  exact ⟨t, rfl⟩

lemma genLoop_fed_suffix (fuel : Nat) : ∀ (step : Nat) (ctx : List Nat),
    ∀ p ∈ (genLoop scorer pick labels endIdx contextsize temperature fuel step ctx).2,
      ∃ g, g <+: (genLoop scorer pick labels endIdx contextsize temperature fuel step ctx).1 ∧
        p.1 <:+ ctx ++ g := by
  induction fuel with
  | zero => intro step ctx p hp; simp [genLoop_zero] at hp
  | succ n ih =>
    intro step ctx p hp
    rw [genLoop_succ] at hp ⊢
    dsimp only at hp ⊢
    set tok := labels.getD (pick step ((scorer ctx).map fun z => z / temperature)) 0 with htok
    by_cases h : tok = endIdx
    · rw [if_pos h] at hp ⊢
      simp only [List.mem_singleton] at hp
      subst hp
      exact ⟨[], List.nil_prefix, by simp⟩
    · rw [if_neg h] at hp ⊢
      simp only [List.mem_cons] at hp
      rcases hp with rfl | hp
      · exact ⟨[], List.nil_prefix, by simp⟩
      · obtain ⟨g, hpre, hsuf⟩ := ih (step + 1) (slideCtx contextsize (ctx ++ [tok])) p hp
        refine ⟨tok :: g, prefix_cons_cons tok hpre, ?_⟩
        have h1 := suffix_append_same (slideCtx_suffix contextsize (ctx ++ [tok])) g
        have h2 := hsuf.trans h1
        rw [List.append_assoc, List.singleton_append] at h2
        exact h2

lemma genLoop_fed_length (fuel : Nat) : ∀ (step : Nat) (ctx : List Nat),
    ctx.length ≤ contextsize →
    ∀ p ∈ (genLoop scorer pick labels endIdx contextsize temperature fuel step ctx).2,
      p.1.length ≤ contextsize := by
  induction fuel with
  | zero => intro step ctx _ p hp; simp [genLoop_zero] at hp
  | succ n ih =>
    intro step ctx hctx p hp
    rw [genLoop_succ] at hp
    dsimp only at hp
    split at hp
    · simp only [List.mem_singleton] at hp
      subst hp
      exact hctx
    · simp only [List.mem_cons] at hp
      rcases hp with rfl | hp
      · exact hctx
      · exact ih _ _ (slideCtx_length _ hctx) p hp

end GenerationLemmas

/-- C6: for every maxlength, seed and temperature, the output token sequence of
generate has length at most maxlength, and completing all maxlength iterations
without sampling the end marker returns the full sampled sequence normally (the
function produces the accumulated output, no error). -/
theorem c6_length_bound {W : Type} (m : ModelT W) (scorer : List Nat → List ℚ)
    (pick : Nat → List ℚ → Nat) (seedEnc : List Nat) (endIdx : Nat)
    (maxlength : Nat) (temperature : ℚ) :
    (ModelT.generate m scorer pick seedEnc endIdx maxlength temperature).2.length ≤ maxlength ∧
    (endIdx ∉ (ModelT.generateTrace m scorer pick seedEnc endIdx maxlength temperature).map Prod.snd →
      (ModelT.generate m scorer pick seedEnc endIdx maxlength temperature).2 =
        (ModelT.generateTrace m scorer pick seedEnc endIdx maxlength temperature).map Prod.snd) := by
  constructor
  · exact genLoop_length_le scorer pick m.labels endIdx m.contextsize temperature maxlength 0 seedEnc
  · intro h
    exact (genLoop_end_spec scorer pick m.labels endIdx m.contextsize temperature maxlength 0 seedEnc).2 h

/-- Witness for C6 at a concrete run: two iterations, no end marker sampled,
output of length 2 returned as-is. -/
theorem c6_witness :
    (ModelT.generate mGen scorerW pickW [] 9 2 1).2.length ≤ 2 ∧
    (ModelT.generate mGen scorerW pickW [] 9 2 1).2 =
      (ModelT.generateTrace mGen scorerW pickW [] 9 2 1).map Prod.snd :=
  ⟨(c6_length_bound mGen scorerW pickW [] 9 2 1).1,
   (c6_length_bound mGen scorerW pickW [] 9 2 1).2 (by decide)⟩

/-- C5: if the end-of-sequence token is the sampled output token at some step,
the sampled-token sequence of the run is exactly the returned output followed
by the end marker: generation stops at that step, the output is precisely the
tokens generated strictly before it, and the marker is never in the output. -/
theorem c5_end_token_stops {W : Type} (m : ModelT W) (scorer : List Nat → List ℚ)
    (pick : Nat → List ℚ → Nat) (seedEnc : List Nat) (endIdx : Nat)
    (maxlength : Nat) (temperature : ℚ)
    (h : endIdx ∈ (ModelT.generateTrace m scorer pick seedEnc endIdx maxlength temperature).map Prod.snd) :
    (ModelT.generateTrace m scorer pick seedEnc endIdx maxlength temperature).map Prod.snd =
      (ModelT.generate m scorer pick seedEnc endIdx maxlength temperature).2 ++ [endIdx] ∧
    endIdx ∉ (ModelT.generate m scorer pick seedEnc endIdx maxlength temperature).2 :=
  (genLoop_end_spec scorer pick m.labels endIdx m.contextsize temperature maxlength 0 seedEnc).1 h

/-- Witness for C5 at a concrete run: the single label translates to the END
token, so the first step samples it, the run stops and the output is empty. -/
theorem c5_witness :
    9 ∈ (ModelT.generateTrace mEnd scorerW pickW [] 9 3 1).map Prod.snd ∧
    ((ModelT.generateTrace mEnd scorerW pickW [] 9 3 1).map Prod.snd =
      (ModelT.generate mEnd scorerW pickW [] 9 3 1).2 ++ [9] ∧
     9 ∉ (ModelT.generate mEnd scorerW pickW [] 9 3 1).2) :=
  ⟨by decide, c5_end_token_stops mEnd scorerW pickW [] 9 3 1 (by decide)⟩

/-- C10: generate leaves labels, contextsize and the scorer weights of the
model unchanged, its only model-state change is setting the mode flag to eval,
and the returned output is a prefix of the run's sampled-token sequence — it is
built solely from newly sampled tokens and never contains seed positions. -/
theorem c10_generate_frame {W : Type} (m : ModelT W) (scorer : List Nat → List ℚ)
    (pick : Nat → List ℚ → Nat) (seedEnc : List Nat) (endIdx : Nat)
    (maxlength : Nat) (temperature : ℚ) :
    (ModelT.generate m scorer pick seedEnc endIdx maxlength temperature).1 =
      { m with mode := Mode.eval } ∧
    (ModelT.generate m scorer pick seedEnc endIdx maxlength temperature).2 <+:
      (ModelT.generateTrace m scorer pick seedEnc endIdx maxlength temperature).map Prod.snd := by
  refine ⟨rfl, ?_⟩
  by_cases h : endIdx ∈ (ModelT.generateTrace m scorer pick seedEnc endIdx maxlength temperature).map Prod.snd
  · obtain ⟨heq, -⟩ :=
      (genLoop_end_spec scorer pick m.labels endIdx m.contextsize temperature maxlength 0 seedEnc).1 h
    exact ⟨[endIdx], heq.symm⟩
  · have heq :=
      (genLoop_end_spec scorer pick m.labels endIdx m.contextsize temperature maxlength 0 seedEnc).2 h
    exact heq ▸ List.prefix_refl _

/-- C1 (amended): at every generation step the context fed to the scorer's
encoding is a suffix of the seed encoding followed by a prefix of the generated
output (only the oldest tokens are ever evicted, never the newest), and its
length is at most contextsize provided the seed's encoding is no longer than
contextsize.  For longer seeds the bound fails (see the counterexample). -/
theorem c1_sliding_window_amended {W : Type} (m : ModelT W) (scorer : List Nat → List ℚ)
    (pick : Nat → List ℚ → Nat) (seedEnc : List Nat) (endIdx : Nat)
    (maxlength : Nat) (temperature : ℚ) (p : List Nat × Nat)
    (hp : p ∈ ModelT.generateTrace m scorer pick seedEnc endIdx maxlength temperature) :
    (∃ g, g <+: (ModelT.generate m scorer pick seedEnc endIdx maxlength temperature).2 ∧
      p.1 <:+ seedEnc ++ g) ∧
    (seedEnc.length ≤ m.contextsize → p.1.length ≤ m.contextsize) := by
  constructor
  · exact genLoop_fed_suffix scorer pick m.labels endIdx m.contextsize temperature maxlength 0 seedEnc p hp
  · intro hseed
    exact genLoop_fed_length scorer pick m.labels endIdx m.contextsize temperature maxlength 0 seedEnc hseed p hp

/-- Witness for C1 at a concrete run whose seed fits in the window: the first
fed context is the seed itself, a suffix of seed ++ [] of length within the
window. -/
theorem c1_witness :
    ([1], 7) ∈ ModelT.generateTrace mGen scorerW pickW [1] 9 1 1 ∧
    ((∃ g, g <+: (ModelT.generate mGen scorerW pickW [1] 9 1 1).2 ∧
       ([1], 7).1 <:+ [1] ++ g) ∧
     ((1 : Nat) ≤ mGen.contextsize → ([1], 7).1.length ≤ mGen.contextsize)) :=
  ⟨by decide, by
    have h := c1_sliding_window_amended mGen scorerW pickW [1] 9 1 1 ([1], 7) (by decide)
    exact ⟨h.1, fun _ => h.2 (by decide)⟩⟩

/-- Counterexample for C1 as stated: with contextsize 2 and a seed whose
encoding [1, 2, 3] has length 3, the context fed to the scorer's encoding at
the first generation step has length 3, exceeding contextsize. -/
theorem c1_counterexample :
    fedLengths (ModelT.generateTrace mGen scorerW pickW [1, 2, 3] 9 1 1) = [3] ∧
    mGen.contextsize = 2 ∧ ¬ (3 ≤ 2) := by
  refine ⟨by decide, rfl, by decide⟩

/-- C4 (evaluation at the failing input): generate performs no validation of
temperature; called with temperature = 0 it divides the logits by zero
(in the source, float division producing non-finite values) and proceeds to
sample, returning a normal output — no configuration error is raised. -/
theorem c4_temperature_zero_not_rejected :
    ModelT.generate mGen scorerW pickW [] 9 3 0 =
      ({ mGen with mode := Mode.eval }, [7, 7, 7]) := by
  decide

section FitLemmas

variable {W : Type}

@[simp] lemma updBest_saves (L : Nat → ℚ) (Wt : Nat → W) (s : FitState W) (e : Nat) :
    (updBest L Wt s e).saves = s.saves := by
  unfold updBest; split <;> rfl

@[simp] lemma updBest_stopped (L : Nat → ℚ) (Wt : Nat → W) (s : FitState W) (e : Nat) :
    (updBest L Wt s e).stopped = s.stopped := by
  unfold updBest; split <;> rfl

@[simp] lemma updBest_epochsRun (L : Nat → ℚ) (Wt : Nat → W) (s : FitState W) (e : Nat) :
    (updBest L Wt s e).epochsRun = s.epochsRun := by
  unfold updBest; split <;> rfl

lemma updBest_no_improvement_eq (L : Nat → ℚ) (Wt : Nat → W) (s : FitState W) (e : Nat) :
    (updBest L Wt s e).no_improvement =
      if improvesB s.best_eval (L e) then 0 else s.no_improvement + 1 := by
  unfold updBest; split <;> rfl

lemma updBest_best_eval_eq (L : Nat → ℚ) (Wt : Nat → W) (s : FitState W) (e : Nat) :
    (updBest L Wt s e).best_eval =
      if improvesB s.best_eval (L e) then some (L e) else s.best_eval := by
  unfold updBest; split <;> rfl

lemma updBest_best_model_eq (L : Nat → ℚ) (Wt : Nat → W) (s : FitState W) (e : Nat) :
    (updBest L Wt s e).best_model =
      if improvesB s.best_eval (L e) then some (Wt e) else s.best_model := by
  unfold updBest; split <;> rfl

lemma improvesB_some (b l : ℚ) : improvesB (some b) l = true ↔ l < b := by
  simp [improvesB]

lemma epochStep_of_stopped (L : Nat → ℚ) (Wt : Nat → W) (p : Nat) (ck : Option Nat)
    (s : FitState W) (e : Nat) (h : s.stopped = true) :
    epochStep L Wt p ck s e = s := by
  unfold epochStep; simp [h]

lemma epochStep_epochsRun (L : Nat → ℚ) (Wt : Nat → W) (p : Nat) (ck : Option Nat)
    (s : FitState W) (e : Nat) (h : s.stopped = false) :
    (epochStep L Wt p ck s e).epochsRun = s.epochsRun + 1 := by
  unfold epochStep
  by_cases hp2 : p ≤ (updBest L Wt s e).no_improvement <;> simp [h, hp2]

lemma epochStep_stopped_iff (L : Nat → ℚ) (Wt : Nat → W) (p : Nat) (ck : Option Nat)
    (s : FitState W) (e : Nat) (h : s.stopped = false) :
    (epochStep L Wt p ck s e).stopped = decide (p ≤ (updBest L Wt s e).no_improvement) := by
  unfold epochStep
  by_cases hp2 : p ≤ (updBest L Wt s e).no_improvement <;> simp [h, hp2]

lemma epochStep_saves (L : Nat → ℚ) (Wt : Nat → W) (p : Nat) (ck : Option Nat)
    (s : FitState W) (e : Nat) (h : s.stopped = false) :
    (epochStep L Wt p ck s e).saves =
      if p ≤ (updBest L Wt s e).no_improvement then s.saves
      else s.saves ++ checkpointSaves Wt ck e := by
  unfold epochStep
  by_cases hp2 : p ≤ (updBest L Wt s e).no_improvement <;> simp [h, hp2]

lemma epochStep_best_eval (L : Nat → ℚ) (Wt : Nat → W) (p : Nat) (ck : Option Nat)
    (s : FitState W) (e : Nat) (h : s.stopped = false) :
    (epochStep L Wt p ck s e).best_eval = (updBest L Wt s e).best_eval := by
  unfold epochStep
  by_cases hp2 : p ≤ (updBest L Wt s e).no_improvement <;> simp [h, hp2]

lemma epochStep_best_model (L : Nat → ℚ) (Wt : Nat → W) (p : Nat) (ck : Option Nat)
    (s : FitState W) (e : Nat) (h : s.stopped = false) :
    (epochStep L Wt p ck s e).best_model = (updBest L Wt s e).best_model := by
  unfold epochStep
  by_cases hp2 : p ≤ (updBest L Wt s e).no_improvement <;> simp [h, hp2]

lemma epochStep_no_improvement (L : Nat → ℚ) (Wt : Nat → W) (p : Nat) (ck : Option Nat)
    (s : FitState W) (e : Nat) (h : s.stopped = false) :
    (epochStep L Wt p ck s e).no_improvement = (updBest L Wt s e).no_improvement := by
  unfold epochStep
  by_cases hp2 : p ≤ (updBest L Wt s e).no_improvement <;> simp [h, hp2]

lemma fitStateN_zero (L : Nat → ℚ) (Wt : Nat → W) (p : Nat) (ck : Option Nat) :
    fitStateN L Wt p ck 0 = initFitState := rfl

lemma fitStateN_succ (L : Nat → ℚ) (Wt : Nat → W) (p : Nat) (ck : Option Nat) (n : Nat) :
    fitStateN L Wt p ck (n + 1) = epochStep L Wt p ck (fitStateN L Wt p ck n) n := by
  unfold fitStateN
  rw [List.range_succ, List.foldl_append]
  rfl

lemma fitStateN_stopped_mono (L : Nat → ℚ) (Wt : Nat → W) (p : Nat) (ck : Option Nat)
    {m : Nat} (h : (fitStateN L Wt p ck m).stopped = true) :
    ∀ n, m ≤ n → fitStateN L Wt p ck n = fitStateN L Wt p ck m := by
  intro n hn
  induction n, hn using Nat.le_induction with
  | base => rfl
  | succ n hmn ih => rw [fitStateN_succ, ih, epochStep_of_stopped _ _ _ _ _ _ h]

lemma epochsRun_eq_of_not_stopped (L : Nat → ℚ) (Wt : Nat → W) (p : Nat) (ck : Option Nat) :
    ∀ n, (fitStateN L Wt p ck n).stopped = false → (fitStateN L Wt p ck n).epochsRun = n := by
  intro n
  induction n with
  | zero => intro _; rfl
  | succ n ih =>
    intro h
    rw [fitStateN_succ] at h ⊢
    cases hs : (fitStateN L Wt p ck n).stopped with
    | true =>
      rw [epochStep_of_stopped _ _ _ _ _ _ hs] at h
      exact absurd h (by simp [hs])
    | false =>
      rw [epochStep_epochsRun _ _ _ _ _ _ hs, ih hs]

lemma checkpoint_mem_iff (L : Nat → ℚ) (Wt : Nat → W) (p k : Nat) :
    ∀ n (e : Nat) (w : Option W),
      ((SaveTag.checkpoint e, w) ∈ (fitStateN L Wt p (some k) n).saves) ↔
        (e < n ∧ (fitStateN L Wt p (some k) (e + 1)).stopped = false ∧
         e % k = 0 ∧ w = some (Wt e)) := by
  intro n
  induction n with
  | zero =>
    intro e w
    simp [fitStateN_zero, initFitState]
  | succ n ih =>
    intro e w
    constructor
    · intro hmem
      rw [fitStateN_succ] at hmem
      cases hs : (fitStateN L Wt p (some k) n).stopped with
      | true =>
        rw [epochStep_of_stopped _ _ _ _ _ _ hs] at hmem
        obtain ⟨he, h2, h3, h4⟩ := (ih e w).mp hmem
        exact ⟨Nat.lt_succ_of_lt he, h2, h3, h4⟩
      | false =>
        rw [epochStep_saves _ _ _ _ _ _ hs] at hmem
        by_cases hp2 : p ≤ (updBest L Wt (fitStateN L Wt p (some k) n) n).no_improvement
        · rw [if_pos hp2] at hmem
          obtain ⟨he, h2, h3, h4⟩ := (ih e w).mp hmem
          exact ⟨Nat.lt_succ_of_lt he, h2, h3, h4⟩
        · rw [if_neg hp2, List.mem_append] at hmem
          rcases hmem with hmem | hmem
          · obtain ⟨he, h2, h3, h4⟩ := (ih e w).mp hmem
            exact ⟨Nat.lt_succ_of_lt he, h2, h3, h4⟩
          · simp only [checkpointSaves] at hmem
            by_cases hek : n % k = 0
            · rw [if_pos hek] at hmem
              simp only [List.mem_singleton, Prod.mk.injEq, SaveTag.checkpoint.injEq] at hmem
              obtain ⟨rfl, rfl⟩ := hmem
              refine ⟨Nat.lt_succ_self e, ?_, hek, rfl⟩
              rw [fitStateN_succ, epochStep_stopped_iff _ _ _ _ _ _ hs]
              simp [hp2]
            · rw [if_neg hek] at hmem
              simp at hmem
    · rintro ⟨he, h2, h3, h4⟩
      rw [fitStateN_succ]
      rcases Nat.lt_succ_iff_lt_or_eq.mp he with he' | rfl
      · have hold := (ih e w).mpr ⟨he', h2, h3, h4⟩
        cases hs : (fitStateN L Wt p (some k) n).stopped with
        | true =>
          rw [epochStep_of_stopped _ _ _ _ _ _ hs]
          exact hold
        | false =>
          rw [epochStep_saves _ _ _ _ _ _ hs]
          split
          · exact hold
          · exact List.mem_append_left _ hold
      · cases hs : (fitStateN L Wt p (some k) e).stopped with
        | true =>
          exfalso
          have hconst := fitStateN_stopped_mono L Wt p (some k) hs (e + 1) (Nat.le_succ e)
          rw [hconst, hs] at h2
          exact absurd h2 (by simp)
        | false =>
          have hstop2 := epochStep_stopped_iff L Wt p (some k) (fitStateN L Wt p (some k) e) e hs
          rw [fitStateN_succ, hstop2] at h2
          have hp2 : ¬ p ≤ (updBest L Wt (fitStateN L Wt p (some k) e) e).no_improvement := by
            simpa using h2
          rw [epochStep_saves _ _ _ _ _ _ hs, if_neg hp2]
          apply List.mem_append_right
          simp only [checkpointSaves]
          rw [if_pos h3]
          simp [h4]

lemma best_model_min (L : Nat → ℚ) (Wt : Nat → W) (p : Nat) (ck : Option Nat) :
    ∀ n, 1 ≤ n → ∃ e, e < (fitStateN L Wt p ck n).epochsRun ∧
      (fitStateN L Wt p ck n).best_eval = some (L e) ∧
      (fitStateN L Wt p ck n).best_model = some (Wt e) ∧
      ∀ i, i < (fitStateN L Wt p ck n).epochsRun → L e ≤ L i := by
  intro n hn
  induction n, hn using Nat.le_induction with
  | base =>
    have e1 : fitStateN L Wt p ck 1 = epochStep L Wt p ck (fitStateN L Wt p ck 0) 0 :=
      fitStateN_succ L Wt p ck 0
    have hs : (fitStateN L Wt p ck 0).stopped = false := rfl
    have him : improvesB (fitStateN L Wt p ck 0).best_eval (L 0) = true := rfl
    refine ⟨0, ?_, ?_, ?_, ?_⟩
    · rw [e1, epochStep_epochsRun _ _ _ _ _ _ hs]
      exact Nat.succ_pos _
    · rw [e1, epochStep_best_eval _ _ _ _ _ _ hs, updBest_best_eval_eq, if_pos him]
    · rw [e1, epochStep_best_model _ _ _ _ _ _ hs, updBest_best_model_eq, if_pos him]
    · intro i hi
      rw [e1, epochStep_epochsRun _ _ _ _ _ _ hs] at hi
      have h00 : (fitStateN L Wt p ck 0).epochsRun = 0 := rfl
      rw [h00] at hi
      have := Nat.lt_one_iff.mp hi
      subst this
      exact le_refl _
  | succ n hn ih =>
    obtain ⟨e, he, hbe, hbm, hmin⟩ := ih
    have e1 : fitStateN L Wt p ck (n + 1) = epochStep L Wt p ck (fitStateN L Wt p ck n) n :=
      fitStateN_succ L Wt p ck n
    cases hs : (fitStateN L Wt p ck n).stopped with
    | true =>
      have hconst := fitStateN_stopped_mono L Wt p ck hs (n + 1) (Nat.le_succ n)
      rw [hconst]
      exact ⟨e, he, hbe, hbm, hmin⟩
    | false =>
      have hrun : (fitStateN L Wt p ck n).epochsRun = n :=
        epochsRun_eq_of_not_stopped L Wt p ck n hs
      have hrun1 : (fitStateN L Wt p ck (n + 1)).epochsRun = n + 1 := by
        rw [e1, epochStep_epochsRun _ _ _ _ _ _ hs, hrun]
      by_cases him : improvesB (fitStateN L Wt p ck n).best_eval (L n) = true
      · refine ⟨n, ?_, ?_, ?_, ?_⟩
        · rw [hrun1]; exact Nat.lt_succ_self n
        · rw [e1, epochStep_best_eval _ _ _ _ _ _ hs, updBest_best_eval_eq, if_pos him]
        · rw [e1, epochStep_best_model _ _ _ _ _ _ hs, updBest_best_model_eq, if_pos him]
        · intro i hi
          rw [hrun1] at hi
          rcases Nat.lt_succ_iff_lt_or_eq.mp hi with hi' | rfl
          · have hlt : L n < L e := by
              rw [hbe] at him
              exact (improvesB_some _ _).mp him
            exact le_trans (le_of_lt hlt) (hmin i (by rw [hrun]; exact hi'))
          · exact le_refl _
      · simp only [Bool.not_eq_true] at him
        refine ⟨e, ?_, ?_, ?_, ?_⟩
        · rw [hrun1]
          exact Nat.lt_succ_of_lt (by rw [← hrun]; exact he)
        · rw [e1, epochStep_best_eval _ _ _ _ _ _ hs, updBest_best_eval_eq,
              if_neg (by simp [him]), hbe]
        · rw [e1, epochStep_best_model _ _ _ _ _ _ hs, updBest_best_model_eq,
              if_neg (by simp [him]), hbm]
        · intro i hi
          rw [hrun1] at hi
          rcases Nat.lt_succ_iff_lt_or_eq.mp hi with hi' | rfl
          · exact hmin i (by rw [hrun]; exact hi')
          · rw [hbe] at him
            have hnot : ¬ (L i < L e) := by
              intro hc
              rw [(improvesB_some (L e) (L i)).mpr hc] at him
              exact absurd him (by simp)
            exact le_of_not_lt hnot

lemma streak_lemma (L : Nat → ℚ) (Wt : Nat → W) (p : Nat) (ck : Option Nat)
    (j : Nat) (b : ℚ) (hp : 1 ≤ p)
    (hstop : (fitStateN L Wt p ck (j + 1)).stopped = false)
    (hbest : (fitStateN L Wt p ck (j + 1)).best_eval = some b)
    (hni : (fitStateN L Wt p ck (j + 1)).no_improvement = 0)
    (hL : ∀ i, j < i → i ≤ j + p → b ≤ L i) :
    ∀ m, m ≤ p →
      (fitStateN L Wt p ck (j + 1 + m)).best_eval = some b ∧
      (fitStateN L Wt p ck (j + 1 + m)).no_improvement = m ∧
      (fitStateN L Wt p ck (j + 1 + m)).stopped = decide (p ≤ m) ∧
      (fitStateN L Wt p ck (j + 1 + m)).epochsRun = j + 1 + m := by
  intro m
  induction m with
  | zero =>
    intro _
    refine ⟨hbest, hni, ?_, epochsRun_eq_of_not_stopped L Wt p ck (j + 1) hstop⟩
    have hnp : ¬ (p ≤ 0) := by omega
    rw [hstop]
    simp [hnp]
  | succ m ih =>
    intro hm
    have hm' : m ≤ p := Nat.le_of_succ_le hm
    have hmlt : m < p := hm
    obtain ⟨ibe, ini, ist, irun⟩ := ih hm'
    have hs : (fitStateN L Wt p ck (j + 1 + m)).stopped = false := by
      rw [ist]
      simp [Nat.not_le.mpr hmlt]
    have hidx : j + 1 + (m + 1) = (j + 1 + m) + 1 := rfl
    have him : improvesB (fitStateN L Wt p ck (j + 1 + m)).best_eval (L (j + 1 + m)) = false := by
      rw [ibe]
      have hble : b ≤ L (j + 1 + m) := hL (j + 1 + m) (by omega) (by omega)
      simp [improvesB, not_lt.mpr hble]
    refine ⟨?_, ?_, ?_, ?_⟩
    · rw [hidx, fitStateN_succ, epochStep_best_eval _ _ _ _ _ _ hs, updBest_best_eval_eq,
          if_neg (by simp [him]), ibe]
    · rw [hidx, fitStateN_succ, epochStep_no_improvement _ _ _ _ _ _ hs,
          updBest_no_improvement_eq, if_neg (by simp [him]), ini]
    · rw [hidx, fitStateN_succ, epochStep_stopped_iff _ _ _ _ _ _ hs,
          updBest_no_improvement_eq, if_neg (by simp [him]), ini]
    · rw [hidx, fitStateN_succ, epochStep_epochsRun _ _ _ _ _ _ hs, irun]

end FitLemmas

/-- C8: fit raises the insufficient-data ValueError exactly when the dataset
yields zero training batches or zero validation batches; the check happens
before the labels are stored, before scorer construction and before any save,
and with at least one batch in each split the run proceeds with no such error. -/
theorem c8_insufficient_data {W : Type} (lentrainbatches lenvalbatches : Nat)
    (L : Nat → ℚ) (Wt : Nat → W) (p : Nat) (ck : Option Nat) (maxepochs : Nat) :
    (fit lentrainbatches lenvalbatches L Wt p ck maxepochs =
      Except.error "Insufficient data for training in the current setting" ↔
      (lentrainbatches = 0 ∨ lenvalbatches = 0)) ∧
    (fit lentrainbatches lenvalbatches L Wt p ck maxepochs =
      Except.ok (fitResult L Wt p ck maxepochs) ↔
      ¬ (lentrainbatches = 0 ∨ lenvalbatches = 0)) := by
  unfold fit
  by_cases h : lentrainbatches = 0 ∨ lenvalbatches = 0 <;> simp [h]

/-- Witness for C8: zero training batches produce the configuration error, one
batch in each split runs training normally. -/
theorem c8_witness :
    fit 0 1 lossesW idW 10 none 3 =
      Except.error "Insufficient data for training in the current setting" ∧
    fit 1 1 lossesW idW 10 none 3 = Except.ok (fitResult lossesW idW 10 none 3) :=
  ⟨(c8_insufficient_data 0 1 lossesW idW 10 none 3).1.mpr (Or.inl rfl),
   (c8_insufficient_data 1 1 lossesW idW 10 none 3).2.mpr (by decide)⟩

/-- C2 (amended): with checkpointepochs = k at least 1, a checkpoint directory
for epoch e is written iff e runs within maxepochs, the early-stopping break
does not trigger at or before epoch e, and e is divisible by k; in particular
the checkpoint of an epoch at which early stopping triggers is skipped, so
checkpoint writing does depend on that epoch's early-stopping decision. -/
theorem c2_checkpoint_iff {W : Type} (L : Nat → ℚ) (Wt : Nat → W) (p k maxepochs : Nat)
    (hk : 0 < k) (e : Nat) (w : Option W) :
    ((SaveTag.checkpoint e, w) ∈ (fitResult L Wt p (some k) maxepochs).saves) ↔
      (e < maxepochs ∧ (fitStateN L Wt p (some k) (e + 1)).stopped = false ∧
       e % k = 0 ∧ w = some (Wt e)) := by
  have hiff := checkpoint_mem_iff L Wt p k maxepochs e w
  simp only [fitResult, List.mem_append, List.mem_singleton]
  rw [hiff]
  constructor
  · rintro (h | h)
    · exact h
    · exact absurd (congrArg Prod.fst h) (by simp)
  · intro h
    exact Or.inl h

/-- Witness for C2's amended theorem at a concrete run: the epoch-0 checkpoint
of a run with k = 1 exists because epoch 0 runs, does not stop early, and is
divisible by 1. -/
theorem c2_witness :
    (0 : Nat) < 1 ∧
    (((SaveTag.checkpoint 0, (some 0 : Option Nat)) ∈
        (fitResult lossesW idW 1 (some 1) 3).saves) ↔
      (0 < 3 ∧ (fitStateN lossesW idW 1 (some 1) 1).stopped = false ∧
       0 % 1 = 0 ∧ (some 0 : Option Nat) = some (idW 0))) :=
  ⟨Nat.one_pos, c2_checkpoint_iff lossesW idW 1 1 3 Nat.one_pos 0 (some 0)⟩

/-- Counterexample for C2 as stated: with checkpointepochs = 1, patience = 1
and a loss sequence improving only at epoch 0, epoch 1 completes (two epochs
run) and 1 is divisible by 1, yet no checkpoint for epoch 1 is written — the
early-stopping break at epoch 1 skips the checkpoint block, so the set of
checkpoints is not all multiples of k up to the last completed epoch and does
depend on the early-stopping decision. -/
theorem c2_counterexample :
    (fitResult lossesW idW 1 (some 1) 3).epochsRun = 2 ∧
    (fitResult lossesW idW 1 (some 1) 3).saves =
      [(SaveTag.checkpoint 0, some 0), (SaveTag.best, some 0)] ∧
    ((SaveTag.checkpoint 1, some 1) ∉ (fitResult lossesW idW 1 (some 1) 3).saves) := by
  decide

/-- C3: every terminating run of fit (early stop or exhausted maxepochs)
restores the best-known snapshot as the active model, persists it as the final
save to the 'best' location, and that snapshot is the weights of an epoch whose
validation loss is minimal among all epochs that ran. -/
theorem c3_best_restored {W : Type} (L : Nat → ℚ) (Wt : Nat → W) (p : Nat)
    (ck : Option Nat) (maxepochs : Nat) (hm : 1 ≤ maxepochs) :
    (fitResult L Wt p ck maxepochs).finalModel =
      (fitStateN L Wt p ck maxepochs).best_model ∧
    (fitResult L Wt p ck maxepochs).saves.getLast? =
      some (SaveTag.best, (fitStateN L Wt p ck maxepochs).best_model) ∧
    ∃ e, e < (fitStateN L Wt p ck maxepochs).epochsRun ∧
      (fitResult L Wt p ck maxepochs).finalModel = some (Wt e) ∧
      ∀ i, i < (fitStateN L Wt p ck maxepochs).epochsRun → L e ≤ L i := by
  refine ⟨rfl, ?_, ?_⟩
  · simp only [fitResult]
    rw [List.getLast?_concat]
  · obtain ⟨e, he, _, hbm, hmin⟩ := best_model_min L Wt p ck maxepochs hm
    exact ⟨e, he, hbm, hmin⟩

/-- Witness for C3 at a concrete run that exhausts maxepochs: the final model
is the tracked best snapshot and the last save is to the 'best' location. -/
theorem c3_witness :
    (1 : Nat) ≤ 2 ∧
    (fitResult lossesW idW 5 none 2).finalModel =
      (fitStateN lossesW idW 5 none 2).best_model ∧
    (fitResult lossesW idW 5 none 2).saves.getLast? =
      some (SaveTag.best, (fitStateN lossesW idW 5 none 2).best_model) :=
  ⟨by decide, (c3_best_restored lossesW idW 5 none 2 (by decide)).1,
   (c3_best_restored lossesW idW 5 none 2 (by decide)).2.1⟩

/-- C7: if after an improving epoch j the validation loss fails to strictly
improve on the best seen for exactly patience consecutive epochs, training
stops during epoch j + patience: exactly j + 1 + patience epochs run, the loop
is left via the break (stopped), no later epoch changes the state, and when
that happens strictly before maxepochs the run ends short of maxepochs; a
strictly improving epoch always resets the stagnation counter to zero. -/
theorem c7_early_stopping {W : Type} (L : Nat → ℚ) (Wt : Nat → W) (p : Nat)
    (ck : Option Nat) (maxepochs j : Nat) (b : ℚ)
    (hp : 1 ≤ p) (hm : j + 1 + p ≤ maxepochs)
    (hstop : (fitStateN L Wt p ck (j + 1)).stopped = false)
    (hbest : (fitStateN L Wt p ck (j + 1)).best_eval = some b)
    (hni : (fitStateN L Wt p ck (j + 1)).no_improvement = 0)
    (hL : ∀ i, j < i → i ≤ j + p → b ≤ L i) :
    (fitStateN L Wt p ck maxepochs).stopped = true ∧
    (fitStateN L Wt p ck maxepochs).epochsRun = j + 1 + p ∧
    (j + 1 + p < maxepochs → (fitStateN L Wt p ck maxepochs).epochsRun < maxepochs) ∧
    (∀ n, (fitStateN L Wt p ck n).stopped = false →
      improvesB (fitStateN L Wt p ck n).best_eval (L n) = true →
      (fitStateN L Wt p ck (n + 1)).no_improvement = 0) := by
  obtain ⟨-, -, hst, hrun⟩ := streak_lemma L Wt p ck j b hp hstop hbest hni hL p (le_refl p)
  have hst' : (fitStateN L Wt p ck (j + 1 + p)).stopped = true := by
    rw [hst]; simp
  have hconst := fitStateN_stopped_mono L Wt p ck hst' maxepochs hm
  refine ⟨by rw [hconst]; exact hst', by rw [hconst]; exact hrun, ?_, ?_⟩
  · intro hlt
    rw [hconst, hrun]
    exact hlt
  · intro n hn him
    rw [fitStateN_succ, epochStep_no_improvement _ _ _ _ _ _ hn,
        updBest_no_improvement_eq, if_pos him]

/-- Witness for C7 at a concrete run: loss improves at epoch 0 and stagnates
for patience = 2 epochs, so the run of maxepochs = 5 stops after exactly 3
epochs. -/
theorem c7_witness :
    (fitStateN lossesW idW 2 none 5).stopped = true ∧
    (fitStateN lossesW idW 2 none 5).epochsRun = 3 := by
  have h := c7_early_stopping lossesW idW 2 none 5 0 1 (by decide) (by decide)
    (by decide) (by decide) (by decide)
    (by
      intro i hi _
      have hne : i ≠ 0 := Nat.pos_iff_ne_zero.mp hi
      simp only [lossesW, if_neg hne]
      norm_num)
  exact ⟨h.1, h.2.1⟩

end Neurowriter
